import Mathlib

/-
Verification of TB2J/pauli.py: Pauli decomposition and reconstruction of
block matrices.

Matrices are embedded as `PyMat`: a pair of dimensions together with an
entry function, mirroring a numpy 2-d array.  Entries are Gaussian
rationals `GQ` (complex numbers with rational real and imaginary parts),
which model the complex arithmetic of the source exactly, so equalities
stated "within floating-point tolerance" are settled as exact identities.
Fallible functions (assert failures, unsupported operations, dictionary
lookups) return `Except PyErr`.
-/

/-- Gaussian rational: a complex number with rational real and imaginary
parts.  Models the complex scalars of the numpy arrays in pauli.py. -/
structure GQ where
  re : ℚ
  im : ℚ
deriving DecidableEq, Repr

namespace GQ

instance : Zero GQ := ⟨⟨0, 0⟩⟩

instance : One GQ := ⟨⟨1, 0⟩⟩

instance : OfNat GQ 2 := ⟨⟨2, 0⟩⟩

def add (z w : GQ) : GQ := ⟨z.re + w.re, z.im + w.im⟩

def sub (z w : GQ) : GQ := ⟨z.re - w.re, z.im - w.im⟩

def neg (z : GQ) : GQ := ⟨-z.re, -z.im⟩

def mul (z w : GQ) : GQ := ⟨z.re * w.re - z.im * w.im, z.re * w.im + z.im * w.re⟩

/-- Complex division, total on ℚ (division by zero yields zero, as in ℚ). -/
def div (z w : GQ) : GQ :=
  ⟨(z.re * w.re + z.im * w.im) / (w.re ^ 2 + w.im ^ 2),
   (z.im * w.re - z.re * w.im) / (w.re ^ 2 + w.im ^ 2)⟩

instance : Add GQ := ⟨add⟩
instance : Sub GQ := ⟨sub⟩
instance : Neg GQ := ⟨neg⟩
instance : Mul GQ := ⟨mul⟩
instance : Div GQ := ⟨div⟩

/-- The imaginary unit, numpy 1j. -/
def I : GQ := ⟨0, 1⟩

theorem ext {z w : GQ} (h1 : z.re = w.re) (h2 : z.im = w.im) : z = w := by
  cases z; cases w; cases h1; cases h2; rfl

@[simp] theorem zero_re : (0 : GQ).re = 0 := rfl

@[simp] theorem zero_im : (0 : GQ).im = 0 := rfl

@[simp] theorem one_re : (1 : GQ).re = 1 := rfl

@[simp] theorem one_im : (1 : GQ).im = 0 := rfl

@[simp] theorem two_re : (2 : GQ).re = 2 := rfl

@[simp] theorem two_im : (2 : GQ).im = 0 := rfl

@[simp] theorem add_re (z w : GQ) : (z + w).re = z.re + w.re := rfl

@[simp] theorem add_im (z w : GQ) : (z + w).im = z.im + w.im := rfl

@[simp] theorem sub_re (z w : GQ) : (z - w).re = z.re - w.re := rfl

@[simp] theorem sub_im (z w : GQ) : (z - w).im = z.im - w.im := rfl

@[simp] theorem neg_re (z : GQ) : (-z).re = -z.re := rfl

@[simp] theorem neg_im (z : GQ) : (-z).im = -z.im := rfl

@[simp] theorem mul_re (z w : GQ) : (z * w).re = z.re * w.re - z.im * w.im := rfl

@[simp] theorem mul_im (z w : GQ) : (z * w).im = z.re * w.im + z.im * w.re := rfl

@[simp] theorem div_re (z w : GQ) :
    (z / w).re = (z.re * w.re + z.im * w.im) / (w.re ^ 2 + w.im ^ 2) := rfl

@[simp] theorem div_im (z w : GQ) :
    (z / w).im = (z.im * w.re - z.re * w.im) / (w.re ^ 2 + w.im ^ 2) := rfl

@[simp] theorem I_re : I.re = 0 := rfl

@[simp] theorem I_im : I.im = 1 := rfl

@[simp] theorem one_mul_def (z : GQ) : 1 * z = z := by
  apply ext <;> simp

@[simp] theorem mul_one_def (z : GQ) : z * 1 = z := by
  apply ext <;> simp

@[simp] theorem mul_zero_def (z : GQ) : z * 0 = 0 := by
  apply ext <;> simp

@[simp] theorem zero_mul_def (z : GQ) : 0 * z = 0 := by
  apply ext <;> simp

theorem add_assoc_def (a b c : GQ) : a + b + c = a + (b + c) := by
  apply ext <;> simp <;> ring

theorem zero_add_def (a : GQ) : 0 + a = a := by
  apply ext <;> simp

theorem add_zero_def (a : GQ) : a + 0 = a := by
  apply ext <;> simp

theorem add_comm_def (a b : GQ) : a + b = b + a := by
  apply ext <;> simp <;> ring

instance : AddCommMonoid GQ where
  add := (· + ·)
  zero := 0
  add_assoc := add_assoc_def
  zero_add := zero_add_def
  add_zero := add_zero_def
  add_comm := add_comm_def
  nsmul := nsmulRec

end GQ

/-- The sign function of numpy (1.x) on a complex scalar:
sign(x.real) + 0j when x.real is nonzero, else sign(x.imag) + 0j. -/
def npSign (z : GQ) : GQ :=
  if z.re ≠ 0 then ⟨if 0 < z.re then 1 else if z.re < 0 then -1 else 0, 0⟩
  else ⟨if 0 < z.im then 1 else if z.im < 0 then -1 else 0, 0⟩

/-- Exceptions raised by the Python source. -/
inductive PyErr where
  | typeError
  | assertionError
  | keyError
  | notImplementedError
deriving DecidableEq, Repr

/-- A numpy 2-d array: a shape (rows, cols) together with an entry
function.  Only indices below the shape are meaningful. -/
structure PyMat where
  rows : ℕ
  cols : ℕ
  entry : ℕ → ℕ → GQ

namespace PyMat

/-- The slice M[r0:r1, c0:c1] (in-bounds at every use site below). -/
def slice (M : PyMat) (r0 r1 c0 c1 : ℕ) : PyMat :=
  ⟨r1 - r0, c1 - c0, fun i j => M.entry (r0 + i) (c0 + j)⟩

/-- Entry-wise sum A + B (used only at matching shapes, so numpy
broadcasting never enters). -/
def add (A B : PyMat) : PyMat :=
  ⟨A.rows, A.cols, fun i j => A.entry i j + B.entry i j⟩

/-- Entry-wise difference A - B (matching shapes at every use site). -/
def sub (A B : PyMat) : PyMat :=
  ⟨A.rows, A.cols, fun i j => A.entry i j - B.entry i j⟩

/-- Entry-wise (Hadamard) product A * B of numpy, matching shapes. -/
def hadamard (A B : PyMat) : PyMat :=
  ⟨A.rows, A.cols, fun i j => A.entry i j * B.entry i j⟩

/-- The numpy array-times-scalar product M * c. -/
def smul (A : PyMat) (c : GQ) : PyMat :=
  ⟨A.rows, A.cols, fun i j => A.entry i j * c⟩

/-- The numpy array-divided-by-scalar M / c. -/
def divScalar (A : PyMat) (c : GQ) : PyMat :=
  ⟨A.rows, A.cols, fun i j => A.entry i j / c⟩

/-- Matrix product A.dot(B). -/
def dot (A B : PyMat) : PyMat :=
  ⟨A.rows, B.cols, fun i j => ∑ k ∈ Finset.range A.cols, A.entry i k * B.entry k j⟩

/-- The numpy transpose M.T. -/
def transpose (A : PyMat) : PyMat :=
  ⟨A.cols, A.rows, fun i j => A.entry j i⟩

/-- np.trace: sum of the diagonal entries a[i, i]. -/
def trace (A : PyMat) : GQ :=
  ∑ i ∈ Finset.range (min A.rows A.cols), A.entry i i

/-- np.sum over all entries. -/
def sumAll (A : PyMat) : GQ :=
  ∑ i ∈ Finset.range A.rows, ∑ j ∈ Finset.range A.cols, A.entry i j

/-- Equality of numpy arrays: same shape and same entries within it. -/
def EqOn (A B : PyMat) : Prop :=
  A.rows = B.rows ∧ A.cols = B.cols ∧
    ∀ i < A.rows, ∀ j < A.cols, A.entry i j = B.entry i j

instance (A B : PyMat) : Decidable (EqOn A B) := by
  unfold EqOn; infer_instance

end PyMat

/-- np.block([[A, B], [C, D]]) for blocks of matching shapes. -/
def np_block (A B C D : PyMat) : PyMat :=
  ⟨A.rows + C.rows, A.cols + B.cols, fun i j =>
    if i < A.rows then
      if j < A.cols then A.entry i j else B.entry i (j - A.cols)
    else
      if j < C.cols then C.entry (i - A.rows) j else D.entry (i - A.rows) (j - C.cols)⟩

/-- The N x N matrix of ones, np.ones((N, N), dtype=complex). -/
def onesMat (N : ℕ) : PyMat := ⟨N, N, fun _ _ => 1⟩

/-- The all-zero matrix of shape m x n. -/
def zerosMat (m n : ℕ) : PyMat := ⟨m, n, fun _ _ => 0⟩

/-- s0 = [[1, 0], [0, 1]]. -/
def s0 : PyMat := ⟨2, 2, fun i j => if i = j then 1 else 0⟩

/-- s1 = [[0, 1], [1, 0]]. -/
def s1 : PyMat := ⟨2, 2, fun i j => if i = j then 0 else 1⟩

/-- s2 = [[0, -1j], [1j, 0]]. -/
def s2 : PyMat :=
  ⟨2, 2, fun i j => if i = 0 then (if j = 0 then 0 else -GQ.I) else (if j = 0 then GQ.I else 0)⟩

/-- s3 = [[1, 0], [0, -1]]. -/
def s3 : PyMat :=
  ⟨2, 2, fun i j => if i = 0 then (if j = 0 then 1 else 0) else (if j = 0 then 0 else -1)⟩

/-- s0T = s0.T. -/
def s0T : PyMat := s0.transpose

/-- s1T = s1.T. -/
def s1T : PyMat := s1.transpose

/-- s2T = s2.T. -/
def s2T : PyMat := s2.transpose

/-- s3T = s3.T. -/
def s3T : PyMat := s3.transpose

/-- pauli_dict = {0: s0, 1: s1, 2: s2, 3: s3}; lookup at any other key
raises KeyError. -/
def pauli_dict (i : ℕ) : Except PyErr PyMat :=
  match i with
  | 0 => .ok s0
  | 1 => .ok s1
  | 2 => .ok s2
  | 3 => .ok s3
  | _ => .error .keyError

/-- pauli_mat(nbasis, i): N = nbasis // 2; assert N * 2 == nbasis;
M = np.ones((N, N)); spm = pauli_dict[i]; np.block of M * spm entries. -/
def pauli_mat (nbasis i : ℕ) : Except PyErr PyMat :=
  let N := nbasis / 2
  if N * 2 = nbasis then
    let M := onesMat N
    match pauli_dict i with
    | .ok spm =>
        .ok (np_block (M.smul (spm.entry 0 0)) (M.smul (spm.entry 0 1))
                      (M.smul (spm.entry 1 0)) (M.smul (spm.entry 1 1)))
    | .error e => .error e
  else .error .assertionError

/-- pauli_decomp(M): (tr(s0.M)/2, tr(s1.M)/2, tr(s2.M)/2, tr(s3.M)/2). -/
def pauli_decomp (M : PyMat) : GQ × GQ × GQ × GQ :=
  ((s0.dot M).trace / 2, (s1.dot M).trace / 2,
   (s2.dot M).trace / 2, (s3.dot M).trace / 2)

/-- pauli_decomp2(M): (sum(M*s0T)/2, sum(M*s1T)/2, sum(M*s2T)/2, sum(M*s3T)/2). -/
def pauli_decomp2 (M : PyMat) : GQ × GQ × GQ × GQ :=
  ((M.hadamard s0T).sumAll / 2, (M.hadamard s1T).sumAll / 2,
   (M.hadamard s2T).sumAll / 2, (M.hadamard s3T).sumAll / 2)

/-- The line `norb1, norb2 = M.shape // 2` of pauli_block: `M.shape` is a
plain Python tuple and `tuple // int` is unsupported, so this raises
TypeError for every input (pauli_block_all, by contrast, wraps the shape
in np.array first). -/
def shapeFloorDiv (_shape : ℕ × ℕ) (_d : ℕ) : Except PyErr (ℕ × ℕ) :=
  .error .typeError

/-- pauli_block(M, idim): unpack `M.shape // 2`, then dispatch on idim,
with `raise NotImplementedError()` on any idim outside 0..3. -/
def pauli_block (M : PyMat) (idim : ℕ) : Except PyErr PyMat := do
  let (norb1, norb2) ← shapeFloorDiv (M.rows, M.cols) 2
  if idim = 0 then
    pure (((M.slice 0 norb1 0 norb2).add (M.slice norb1 M.rows norb2 M.cols)).divScalar 2)
  else if idim = 1 then
    pure (((M.slice 0 norb1 norb2 M.cols).add (M.slice norb1 M.rows 0 norb2)).divScalar 2)
  else if idim = 2 then
    pure ((((M.slice 0 norb1 norb2 M.cols).smul GQ.I).add
            ((M.slice norb1 M.rows 0 norb2).smul (-GQ.I))).divScalar 2)
  else if idim = 3 then
    pure (((M.slice 0 norb1 0 norb2).sub (M.slice norb1 M.rows norb2 M.cols)).divScalar 2)
  else
    .error .notImplementedError

/-- pauli_block_all(M): norb1, norb2 = np.array(M.shape) // 2, then the
four blocks MI, Mx, My, Mz from the slices of M. -/
def pauli_block_all (M : PyMat) : PyMat × PyMat × PyMat × PyMat :=
  let norb1 := M.rows / 2
  let norb2 := M.cols / 2
  let MI := ((M.slice 0 norb1 0 norb2).add (M.slice norb1 M.rows norb2 M.cols)).divScalar 2
  let Mx := ((M.slice 0 norb1 norb2 M.cols).add (M.slice norb1 M.rows 0 norb2)).divScalar 2
  let My := (((M.slice 0 norb1 norb2 M.cols).smul GQ.I).add
              ((M.slice norb1 M.rows 0 norb2).smul (-GQ.I))).divScalar 2
  let Mz := ((M.slice 0 norb1 0 norb2).sub (M.slice norb1 M.rows norb2 M.cols)).divScalar 2
  (MI, Mx, My, Mz)

/-- pauli_block_sigma_norm(M): MI, Mx, My, Mz = pauli_block_all(M);
return Mz * np.sign(np.trace(Mz)). -/
def pauli_block_sigma_norm (M : PyMat) : PyMat :=
  let P := pauli_block_all M
  let Mz := P.2.2.2
  Mz.smul (npSign Mz.trace)

/-- A concrete 2x2 matrix (the identity), used as a test input. -/
def id2 : PyMat := ⟨2, 2, fun i j => if i = j then 1 else 0⟩

/-- A concrete 2x2 complex matrix with distinct entries, a test input. -/
def cM4 : PyMat :=
  ⟨2, 2, fun i j => ⟨((2 * i + 3 * j + 1 : ℕ) : ℚ), (i : ℚ) - (j : ℚ)⟩⟩

/-- Another concrete 2x2 complex matrix, a test input. -/
def cM5 : PyMat :=
  ⟨2, 2, fun i j => ⟨(i : ℚ) + 2 * (j : ℚ), ((5 : ℚ) + i) * ((j : ℚ) + 1)⟩⟩

/-- A third concrete 2x2 complex matrix, a test input. -/
def cM8 : PyMat :=
  ⟨2, 2, fun i j => ⟨(3 : ℚ) * i + j + 2, (i : ℚ) * j - 1⟩⟩

/-- A concrete 4x4 diagonal matrix whose z-component block is
diag(1, -1): nonzero but of zero trace. -/
def cM9 : PyMat :=
  ⟨4, 4, fun i j =>
    if i = j then (if i = 0 then 2 else if i = 3 then 2 else 0) else 0⟩

/-- The 2N x 2N block matrix with four uniform N x N blocks w, x, y, z:
the shape of every value pauli_mat can return. -/
def uniformBlock (w x y z : GQ) (N : ℕ) : PyMat :=
  np_block ((onesMat N).smul w) ((onesMat N).smul x)
           ((onesMat N).smul y) ((onesMat N).smul z)

/-- C2: the claim says pauli_block(M, idim) returns, without raising, the
idim-th component block.  It does not: the line `norb1, norb2 = M.shape // 2`
floor-divides a Python tuple by an integer, which raises TypeError before
the dispatch on idim is reached, for every input.  Here the code is
evaluated at the 2x2 identity with idim = 0. -/
theorem pauli_block_raises_typeerror :
    pauli_block id2 0 = Except.error PyErr.typeError := rfl

/-- C3: the claim says pauli_block(M, 4) fails with NotImplementedError.
It does fail, but with TypeError, raised at the tuple floor-division
`M.shape // 2` before the `raise NotImplementedError()` branch can be
reached. -/
theorem pauli_block_idim4_typeerror :
    pauli_block id2 4 = Except.error PyErr.typeError ∧
      pauli_block id2 4 ≠ Except.error PyErr.notImplementedError := by
  refine ⟨rfl, fun h => ?_⟩
  have h2 : PyErr.typeError = PyErr.notImplementedError := Except.error.inj h
  exact PyErr.noConfusion h2

/-- C6: for every odd nbasis and every index i, pauli_mat(nbasis, i) fails
with the assertion error of `assert N * 2 == nbasis` (the invalid-dimension
check), and it returns normally only when nbasis is even. -/
theorem pauli_mat_requires_even (nbasis i : ℕ) :
    (Odd nbasis → pauli_mat nbasis i = Except.error PyErr.assertionError) ∧
      (∀ P, pauli_mat nbasis i = Except.ok P → Even nbasis) := by
  constructor
  · intro hodd
    obtain ⟨m, hm⟩ := hodd
    have h : ¬ (nbasis / 2 * 2 = nbasis) := by omega
    simp [pauli_mat, h]
  · intro P hP
    by_cases h : nbasis / 2 * 2 = nbasis
    · exact ⟨nbasis / 2, by omega⟩
    · simp [pauli_mat, h] at hP

/-- Witness for C6 at the concrete odd dimension 3. -/
theorem pauli_mat_requires_even_witness :
    Odd 3 ∧ pauli_mat 3 0 = Except.error PyErr.assertionError :=
  ⟨by decide, (pauli_mat_requires_even 3 0).1 (by decide)⟩

/-- C4: scalar round-trip: for every 2x2 matrix M, with
(I, x, y, z) = pauli_decomp(M), the matrix I*s0 + x*s1 + y*s2 + z*s3
equals M (exactly, hence within any tolerance). -/
theorem pauli_decomp_roundtrip (M : PyMat) (hr : M.rows = 2) (hc : M.cols = 2) :
    PyMat.EqOn
      ((((s0.smul (pauli_decomp M).1).add (s1.smul (pauli_decomp M).2.1)).add
        (s2.smul (pauli_decomp M).2.2.1)).add (s3.smul (pauli_decomp M).2.2.2)) M := by
  refine ⟨hr.symm, hc.symm, ?_⟩
  intro i hi j hj
  have hi2 : i < 2 := hi
  have hj2 : j < 2 := hj
  interval_cases i <;> interval_cases j <;>
    · simp [PyMat.add, PyMat.smul, PyMat.dot, PyMat.trace, pauli_decomp,
        s0, s1, s2, s3, hr, hc, Finset.sum_range_succ]
      apply GQ.ext <;> simp <;> ring

/-- Witness for C4 at a concrete 2x2 matrix. -/
theorem pauli_decomp_roundtrip_witness :
    cM4.rows = 2 ∧ cM4.cols = 2 ∧
      PyMat.EqOn
        ((((s0.smul (pauli_decomp cM4).1).add (s1.smul (pauli_decomp cM4).2.1)).add
          (s2.smul (pauli_decomp cM4).2.2.1)).add (s3.smul (pauli_decomp cM4).2.2.2)) cM4 :=
  ⟨rfl, rfl, pauli_decomp_roundtrip cM4 rfl rfl⟩

/-- C5: method equivalence: pauli_decomp and pauli_decomp2 agree on every
2x2 matrix (exactly, hence within any tolerance). -/
theorem pauli_decomp_eq_decomp2 (M : PyMat) (hr : M.rows = 2) (hc : M.cols = 2) :
    pauli_decomp M = pauli_decomp2 M := by
  simp only [pauli_decomp, pauli_decomp2, PyMat.dot, PyMat.trace, PyMat.hadamard,
    PyMat.sumAll, PyMat.transpose, s0T, s1T, s2T, s3T, s0, s1, s2, s3, hr, hc]
  norm_num [Finset.sum_range_succ]
  repeat' constructor
  all_goals apply GQ.ext <;> (try simp) <;> (try ring)

/-- Witness for C5 at a concrete 2x2 matrix. -/
theorem pauli_decomp_eq_decomp2_witness :
    cM5.rows = 2 ∧ cM5.cols = 2 ∧ pauli_decomp cM5 = pauli_decomp2 cM5 :=
  ⟨rfl, rfl, pauli_decomp_eq_decomp2 cM5 rfl rfl⟩

/-- C1: block round-trip: for every M of shape (2*norb1, 2*norb2), with
(MI, Mx, My, Mz) = pauli_block_all(M), reassembling the blocks
upup = MI + Mz, updn = Mx - i*My, dnup = Mx + i*My, dndn = MI - Mz into
the 2x2-block layout reproduces M exactly. -/
theorem pauli_block_all_roundtrip (n1 n2 : ℕ) (M : PyMat)
    (hr : M.rows = 2 * n1) (hc : M.cols = 2 * n2) :
    PyMat.EqOn
      (np_block
        (((pauli_block_all M).1).add (pauli_block_all M).2.2.2)
        (((pauli_block_all M).2.1).sub (((pauli_block_all M).2.2.1).smul GQ.I))
        (((pauli_block_all M).2.1).add (((pauli_block_all M).2.2.1).smul GQ.I))
        (((pauli_block_all M).1).sub (pauli_block_all M).2.2.2))
      M := by
  have hn1 : M.rows / 2 = n1 := by omega
  have hn2 : M.cols / 2 = n2 := by omega
  have hrn : M.rows - n1 = n1 := by omega
  have hcn : M.cols - n2 = n2 := by omega
  simp only [pauli_block_all, np_block, PyMat.EqOn, PyMat.add, PyMat.sub, PyMat.divScalar,
    PyMat.smul, PyMat.slice, hn1, hn2, hrn, hcn, Nat.sub_zero, Nat.zero_add]
  refine ⟨by omega, by omega, ?_⟩
  intro i hi j hj
  by_cases h1 : i < n1 <;> by_cases h2 : j < n2
  · simp only [h1, h2, if_true]
    apply GQ.ext <;> simp <;> ring
  · have e2 : n2 + (j - n2) = j := by omega
    simp only [h1, h2, if_true, if_false, e2]
    apply GQ.ext <;> simp <;> ring
  · have e1 : n1 + (i - n1) = i := by omega
    simp only [h1, h2, if_true, if_false, e1]
    apply GQ.ext <;> simp <;> ring
  · have e1 : n1 + (i - n1) = i := by omega
    have e2 : n2 + (j - n2) = j := by omega
    simp only [h1, h2, if_false, e1, e2]
    apply GQ.ext <;> simp <;> ring

/-- Witness for C1 at a concrete 2x2 matrix (norb1 = norb2 = 1). -/
theorem pauli_block_all_roundtrip_witness :
    cM4.rows = 2 * 1 ∧ cM4.cols = 2 * 1 ∧
      PyMat.EqOn
        (np_block
          (((pauli_block_all cM4).1).add (pauli_block_all cM4).2.2.2)
          (((pauli_block_all cM4).2.1).sub (((pauli_block_all cM4).2.2.1).smul GQ.I))
          (((pauli_block_all cM4).2.1).add (((pauli_block_all cM4).2.2.1).smul GQ.I))
          (((pauli_block_all cM4).1).sub (pauli_block_all cM4).2.2.2))
        cM4 :=
  ⟨rfl, rfl, pauli_block_all_roundtrip 1 1 cM4 rfl rfl⟩

/-- Decomposing a 2N x 2N matrix with four uniform N x N blocks yields
four uniform N x N blocks with the component scalars of pauli_block_all. -/
theorem pauli_block_all_uniform (w x y z : GQ) (N : ℕ) :
    PyMat.EqOn (pauli_block_all (uniformBlock w x y z N)).1
        ⟨N, N, fun _ _ => (w + z) / 2⟩ ∧
      PyMat.EqOn (pauli_block_all (uniformBlock w x y z N)).2.1
        ⟨N, N, fun _ _ => (x + y) / 2⟩ ∧
      PyMat.EqOn (pauli_block_all (uniformBlock w x y z N)).2.2.1
        ⟨N, N, fun _ _ => (x * GQ.I + y * -GQ.I) / 2⟩ ∧
      PyMat.EqOn (pauli_block_all (uniformBlock w x y z N)).2.2.2
        ⟨N, N, fun _ _ => (w - z) / 2⟩ := by
  have hNN : (N + N) / 2 = N := by omega
  have hNs : N + N - N = N := by omega
  simp only [pauli_block_all, uniformBlock, np_block, onesMat, PyMat.EqOn, PyMat.add,
    PyMat.sub, PyMat.divScalar, PyMat.smul, PyMat.slice, hNN, hNs, Nat.sub_zero,
    Nat.zero_add]
  refine ⟨⟨by trivial, by trivial, ?_⟩, ⟨by trivial, by trivial, ?_⟩,
      ⟨by trivial, by trivial, ?_⟩, ⟨by trivial, by trivial, ?_⟩⟩ <;>
    · intro a ha b hb
      have hna : ¬ (N + a < N) := by omega
      have hnb : ¬ (N + b < N) := by omega
      simp [ha, hb, hna, hnb]

/-- C7: basis recovery: for N >= 1 and i in 0..3, decomposing
pauli_mat(2N, i) with pauli_block_all yields the all-ones N x N matrix at
component i and the zero N x N matrix at the other three components. -/
theorem pauli_mat_basis_recovery (N i : ℕ) (hN : 1 ≤ N) (hi : i < 4) :
    ∃ P, pauli_mat (2 * N) i = Except.ok P ∧
      PyMat.EqOn (pauli_block_all P).1 (if i = 0 then onesMat N else zerosMat N N) ∧
      PyMat.EqOn (pauli_block_all P).2.1 (if i = 1 then onesMat N else zerosMat N N) ∧
      PyMat.EqOn (pauli_block_all P).2.2.1 (if i = 2 then onesMat N else zerosMat N N) ∧
      PyMat.EqOn (pauli_block_all P).2.2.2 (if i = 3 then onesMat N else zerosMat N N) := by
  have h2 : 2 * N / 2 = N := by omega
  have hcond2 : N * 2 = 2 * N := by omega
  interval_cases i
  · refine ⟨uniformBlock 1 0 0 1 N, ?_, ?_, ?_, ?_, ?_⟩
    · simp [pauli_mat, pauli_dict, uniformBlock, h2, hcond2, s0]
    · have h := (pauli_block_all_uniform 1 0 0 1 N).1
      have e : ((1 : GQ) + 1) / 2 = 1 := by apply GQ.ext <;> simp <;> norm_num
      simp only [e] at h
      simpa [onesMat] using h
    · have h := (pauli_block_all_uniform 1 0 0 1 N).2.1
      have e : ((0 : GQ) + 0) / 2 = 0 := by apply GQ.ext <;> simp <;> norm_num
      simp only [e] at h
      simpa [zerosMat] using h
    · have h := (pauli_block_all_uniform 1 0 0 1 N).2.2.1
      have e : ((0 : GQ) * GQ.I + 0 * -GQ.I) / 2 = 0 := by apply GQ.ext <;> simp <;> norm_num
      simp only [e] at h
      simpa [zerosMat] using h
    · have h := (pauli_block_all_uniform 1 0 0 1 N).2.2.2
      have e : ((1 : GQ) - 1) / 2 = 0 := by apply GQ.ext <;> simp <;> norm_num
      simp only [e] at h
      simpa [zerosMat] using h
  · refine ⟨uniformBlock 0 1 1 0 N, ?_, ?_, ?_, ?_, ?_⟩
    · simp [pauli_mat, pauli_dict, uniformBlock, h2, hcond2, s1]
    · have h := (pauli_block_all_uniform 0 1 1 0 N).1
      have e : ((0 : GQ) + 0) / 2 = 0 := by apply GQ.ext <;> simp <;> norm_num
      simp only [e] at h
      simpa [zerosMat] using h
    · have h := (pauli_block_all_uniform 0 1 1 0 N).2.1
      have e : ((1 : GQ) + 1) / 2 = 1 := by apply GQ.ext <;> simp <;> norm_num
      simp only [e] at h
      simpa [onesMat] using h
    · have h := (pauli_block_all_uniform 0 1 1 0 N).2.2.1
      have e : ((1 : GQ) * GQ.I + 1 * -GQ.I) / 2 = 0 := by apply GQ.ext <;> simp <;> norm_num
      simp only [e] at h
      simpa [zerosMat] using h
    · have h := (pauli_block_all_uniform 0 1 1 0 N).2.2.2
      have e : ((0 : GQ) - 0) / 2 = 0 := by apply GQ.ext <;> simp <;> norm_num
      simp only [e] at h
      simpa [zerosMat] using h
  · refine ⟨uniformBlock 0 (-GQ.I) GQ.I 0 N, ?_, ?_, ?_, ?_, ?_⟩
    · simp [pauli_mat, pauli_dict, uniformBlock, h2, hcond2, s2]
    · have h := (pauli_block_all_uniform 0 (-GQ.I) GQ.I 0 N).1
      have e : ((0 : GQ) + 0) / 2 = 0 := by apply GQ.ext <;> simp <;> norm_num
      simp only [e] at h
      simpa [zerosMat] using h
    · have h := (pauli_block_all_uniform 0 (-GQ.I) GQ.I 0 N).2.1
      have e : (-GQ.I + GQ.I) / 2 = 0 := by apply GQ.ext <;> simp <;> norm_num
      simp only [e] at h
      simpa [zerosMat] using h
    · have h := (pauli_block_all_uniform 0 (-GQ.I) GQ.I 0 N).2.2.1
      have e : (-GQ.I * GQ.I + GQ.I * -GQ.I) / 2 = 1 := by apply GQ.ext <;> simp <;> norm_num
      simp only [e] at h
      simpa [onesMat] using h
    · have h := (pauli_block_all_uniform 0 (-GQ.I) GQ.I 0 N).2.2.2
      have e : ((0 : GQ) - 0) / 2 = 0 := by apply GQ.ext <;> simp <;> norm_num
      simp only [e] at h
      simpa [zerosMat] using h
  · refine ⟨uniformBlock 1 0 0 (-1) N, ?_, ?_, ?_, ?_, ?_⟩
    · simp [pauli_mat, pauli_dict, uniformBlock, h2, hcond2, s3]
    · have h := (pauli_block_all_uniform 1 0 0 (-1) N).1
      have e : ((1 : GQ) + -1) / 2 = 0 := by apply GQ.ext <;> simp <;> norm_num
      simp only [e] at h
      simpa [zerosMat] using h
    · have h := (pauli_block_all_uniform 1 0 0 (-1) N).2.1
      have e : ((0 : GQ) + 0) / 2 = 0 := by apply GQ.ext <;> simp <;> norm_num
      simp only [e] at h
      simpa [zerosMat] using h
    · have h := (pauli_block_all_uniform 1 0 0 (-1) N).2.2.1
      have e : ((0 : GQ) * GQ.I + 0 * -GQ.I) / 2 = 0 := by apply GQ.ext <;> simp <;> norm_num
      simp only [e] at h
      simpa [zerosMat] using h
    · have h := (pauli_block_all_uniform 1 0 0 (-1) N).2.2.2
      have e : ((1 : GQ) - -1) / 2 = 1 := by apply GQ.ext <;> simp <;> norm_num
      simp only [e] at h
      simpa [onesMat] using h

/-- Witness for C7 at N = 2, i = 2. -/
theorem pauli_mat_basis_recovery_witness :
    1 ≤ 2 ∧ 2 < 4 ∧
      ∃ P, pauli_mat (2 * 2) 2 = Except.ok P ∧
        PyMat.EqOn (pauli_block_all P).1 (if 2 = 0 then onesMat 2 else zerosMat 2 2) ∧
        PyMat.EqOn (pauli_block_all P).2.1 (if 2 = 1 then onesMat 2 else zerosMat 2 2) ∧
        PyMat.EqOn (pauli_block_all P).2.2.1 (if 2 = 2 then onesMat 2 else zerosMat 2 2) ∧
        PyMat.EqOn (pauli_block_all P).2.2.2 (if 2 = 3 then onesMat 2 else zerosMat 2 2) :=
  ⟨by decide, by decide, pauli_mat_basis_recovery 2 2 (by decide) (by decide)⟩


/-- C8: pauli_block_sigma_norm(M) equals Mz * sign(trace(Mz)) with
Mz = (upup - dndn) / 2 the z-component block of M (and not any Euclidean
norm of (Mx, My, Mz)). -/
theorem pauli_block_sigma_norm_eq (n1 n2 : ℕ) (M : PyMat)
    (hr : M.rows = 2 * n1) (hc : M.cols = 2 * n2) :
    PyMat.EqOn (pauli_block_sigma_norm M)
      ((⟨n1, n2, fun i j => (M.entry i j - M.entry (n1 + i) (n2 + j)) / 2⟩ : PyMat).smul
        (npSign (⟨n1, n2, fun i j =>
          (M.entry i j - M.entry (n1 + i) (n2 + j)) / 2⟩ : PyMat).trace)) := by
  have hn1 : M.rows / 2 = n1 := by omega
  have hn2 : M.cols / 2 = n2 := by omega
  have hz : ∀ a b : ℕ, (pauli_block_all M).2.2.2.entry a b
      = (M.entry a b - M.entry (n1 + a) (n2 + b)) / 2 := by
    intro a b
    simp [pauli_block_all, PyMat.sub, PyMat.divScalar, PyMat.slice, hn1, hn2]
  have hshape1 : (pauli_block_all M).2.2.2.rows = n1 := by
    simp [pauli_block_all, PyMat.sub, PyMat.divScalar, PyMat.slice, hn1]
  have hshape2 : (pauli_block_all M).2.2.2.cols = n2 := by
    simp [pauli_block_all, PyMat.sub, PyMat.divScalar, PyMat.slice, hn2]
  have htr : (pauli_block_all M).2.2.2.trace
      = (⟨n1, n2, fun i j =>
          (M.entry i j - M.entry (n1 + i) (n2 + j)) / 2⟩ : PyMat).trace := by
    unfold PyMat.trace
    rw [hshape1, hshape2]
    exact Finset.sum_congr rfl fun k _ => hz k k
  refine ⟨?_, ?_, ?_⟩
  · simpa [pauli_block_sigma_norm, PyMat.smul] using hshape1
  · simpa [pauli_block_sigma_norm, PyMat.smul] using hshape2
  · intro i hi j hj
    simp only [pauli_block_sigma_norm, PyMat.smul, htr, hz]

/-- Witness for C8 at a concrete 2x2 matrix (norb1 = norb2 = 1). -/
theorem pauli_block_sigma_norm_eq_witness :
    cM8.rows = 2 * 1 ∧ cM8.cols = 2 * 1 ∧
      PyMat.EqOn (pauli_block_sigma_norm cM8)
        ((⟨1, 1, fun i j => (cM8.entry i j - cM8.entry (1 + i) (1 + j)) / 2⟩ : PyMat).smul
          (npSign (⟨1, 1, fun i j =>
            (cM8.entry i j - cM8.entry (1 + i) (1 + j)) / 2⟩ : PyMat).trace)) :=
  ⟨rfl, rfl, pauli_block_sigma_norm_eq 1 1 cM8 rfl rfl⟩

/-- C9: whenever the z-component block Mz of M has zero trace,
pauli_block_sigma_norm(M) is the all-zero matrix (the numpy sign of the
zero trace is zero), even when Mz itself is nonzero. -/
theorem pauli_block_sigma_norm_zero_trace (M : PyMat)
    (h : (pauli_block_all M).2.2.2.trace = 0) :
    PyMat.EqOn (pauli_block_sigma_norm M) (zerosMat (M.rows / 2) (M.cols / 2)) := by
  have hsign : npSign 0 = 0 := by
    simp [npSign]; rfl
  refine ⟨?_, ?_, ?_⟩
  · simp [pauli_block_sigma_norm, PyMat.smul, pauli_block_all, PyMat.sub,
      PyMat.divScalar, PyMat.slice, zerosMat]
  · simp [pauli_block_sigma_norm, PyMat.smul, pauli_block_all, PyMat.sub,
      PyMat.divScalar, PyMat.slice, zerosMat]
  · intro i hi j hj
    simp [pauli_block_sigma_norm, PyMat.smul, h, hsign, zerosMat]

/-- Witness for C9: a concrete 4x4 matrix whose z block is diag(1, -1),
nonzero yet of zero trace, on which pauli_block_sigma_norm vanishes. -/
theorem pauli_block_sigma_norm_zero_trace_witness :
    (pauli_block_all cM9).2.2.2.trace = 0 ∧
      (pauli_block_all cM9).2.2.2.entry 0 0 ≠ 0 ∧
      PyMat.EqOn (pauli_block_sigma_norm cM9) (zerosMat (cM9.rows / 2) (cM9.cols / 2)) := by
  have htr : (pauli_block_all cM9).2.2.2.trace = 0 := by
    simp [pauli_block_all, PyMat.sub, PyMat.divScalar, PyMat.slice, PyMat.trace, cM9,
      Finset.sum_range_succ]
    apply GQ.ext <;> norm_num
  refine ⟨htr, ?_, pauli_block_sigma_norm_zero_trace cM9 htr⟩
  have he : (pauli_block_all cM9).2.2.2.entry 0 0 = 1 := by
    simp [pauli_block_all, PyMat.sub, PyMat.divScalar, PyMat.slice, cM9]
    apply GQ.ext <;> norm_num
  rw [he]
  intro h
  have h2 := congrArg GQ.re h
  simp at h2
